import Mathlib

/-!
Verification development for the data-analysis dashboard repository
(`script.js` with class `ComprehensiveDataAnalyzer`, and the unnamed source
file `src/unnamed/part_000` with class `DataAnalyzer`).

Shallow embedding conventions used throughout this file:

* A raw table cell (a JavaScript string / number / empty value) is abstracted
  by the record `Cell`, which carries exactly the observations the analyzers
  make of a cell:
  - `parsed` models `parseFloat(raw)`: `some q` when the parse yields the
    (finite) number `q`, `none` when it yields `NaN`.  String forms whose
    `parseFloat` is an infinity (such as `"Infinity"`) are outside the model,
    as are overflows: IEEE-754 doubles and their rounding are abstracted by
    exact rational arithmetic.
  - `numericOk` models the numeric test `!isNaN(parseFloat(raw)) && isFinite(raw)`
    used by `identifyColumnTypes` (note `isFinite` coerces the whole string,
    so this is not implied by `parsed`).
  - `dateVal` models `new Date(raw).getTime()`: `some t` for a valid date,
    `none` for an invalid one.
  - `yearGt1900` models `new Date(raw).getFullYear() > 1900`.
  - `empty` models `raw == null || raw === ''` (the sampling filters drop
    such cells).
* A `Row` is the association list of `(column name, cell)` pairs of a parsed
  JS object, in property-insertion order; a `Table` is the list of rows.
  `getCell` models `row[col]`: a missing property behaves as `undefined`
  (`parseFloat(undefined) = NaN`, `new Date(undefined)` is invalid, and
  `undefined == null` holds, hence `undefCell`).
* JavaScript division and `NaN`/`Infinity` propagation, where a claim depends
  on it, is modelled by the type `JSNum` (`nan`, signed `inf`, or a finite
  rational) with the IEEE-like operations `jsAdd`, `jsSub`, `jsDiv`.
* `Array.prototype.sort(cmp)` (a stable comparison sort in modern engines)
  is modelled by `List.insertionSort` over the corresponding relation; only
  determinism and sortedness of the result are relied upon.
-/

unseal Rat.mul Rat.add Rat.sub Rat.inv Rat.ofScientific

structure Cell where
  parsed : Option ℚ
  numericOk : Bool
  dateVal : Option ℚ
  yearGt1900 : Bool
  empty : Bool
deriving DecidableEq, Repr

abbrev Row := List (String × Cell)

abbrev Table := List Row

/-- Reading a property that is absent from a row: `undefined` is `== null`,
`parseFloat(undefined)` is `NaN` and `new Date(undefined)` is invalid. -/
def undefCell : Cell := ⟨none, false, none, false, true⟩

/-- Models `row[col]` (first binding wins; JS objects cannot repeat keys). -/
def getCell (r : Row) (c : String) : Cell :=
  (r.lookup c).getD undefCell

/-- Models `this.columns = Object.keys(this.data[0])` (insertion order). -/
def columnsOf (t : Table) : List String :=
  (t.headD []).map Prod.fst

/-- ASCII lowercasing of one character, as `toLowerCase()` acts on the
ASCII column names handled here. -/
def lowerChar (c : Char) : Char :=
  if 65 ≤ c.toNat && c.toNat ≤ 90 then Char.ofNat (c.toNat + 32) else c

/-- The character list of `s.toLowerCase()`. -/
def lowerChars (s : String) : List Char := s.toList.map lowerChar

/-- Models `requiredColumns.every(col => this.columns.some(e => e.toLowerCase() === col.toLowerCase()))`,
shared verbatim by both analyzer classes (`hasColumns`). -/
def hasColumns (t : Table) (required : List String) : Bool :=
  required.all fun c => (columnsOf t).any fun e => lowerChars e == lowerChars c

/-- Character-list prefix test (helper for the substring test below). -/
def charsStart : List Char → List Char → Bool
  | [], _ => true
  | _ :: _, [] => false
  | a :: as, b :: bs => a == b && charsStart as bs

/-- Character-list substring test (helper for `lowerHasSub`). -/
def charsHasSub (pat : List Char) : List Char → Bool
  | [] => charsStart pat []
  | b :: rest => charsStart pat (b :: rest) || charsHasSub pat rest

/-- Models `s.toLowerCase().includes(pat)` for a lowercase literal `pat`. -/
def lowerHasSub (s pat : String) : Bool :=
  charsHasSub pat.toList (lowerChars s)

/-- The sampling filter `val != null && val !== ''` applied before the type
tests of `identifyColumnTypes` (both variants). -/
def keptInSample (c : Cell) : Bool := !c.empty

/-- The per-value date test `!isNaN(new Date(val).getTime()) && new Date(val).getFullYear() > 1900`
(both variants). -/
def dateTest (c : Cell) : Bool := c.dateVal.isSome && c.yearGt1900

/-- Models `this.data.map(row => parseFloat(row[column])).filter(v => !isNaN(v))`,
the parse-and-filter idiom used by the statistics, trend, and histogram code. -/
def parseColumn (t : Table) (col : String) : List ℚ :=
  t.filterMap fun r => (getCell r col).parsed

namespace DA

/-! Embedding of `DataAnalyzer` (file `src/unnamed/part_000`). -/

/-- The sample drawn by `DataAnalyzer.identifyColumnTypes`:
`this.data.slice(0, 10).map(row => row[col]).filter(val => val != null && val !== '')`. -/
def sampleOf (t : Table) (col : String) : List Cell :=
  ((t.take 10).map (getCell · col)).filter keptInSample

/-- The numeric column test of `DataAnalyzer.identifyColumnTypes`:
`numericCount / sample.length > 0.8`.  With `k ≤ n` natural numbers, the JS
comparison (which is `NaN > 0.8`, hence false, on an empty sample) is exactly
`5 * k > 4 * n`. -/
def isNumericCol (t : Table) (col : String) : Bool :=
  let s := sampleOf t col
  decide (4 * s.length < 5 * (s.filter (·.numericOk)).length)

/-- The date column test of `DataAnalyzer.identifyColumnTypes`:
`dateCount / sample.length > 0.8 && (col.toLowerCase().includes('time') || col.toLowerCase().includes('date'))`.
This test is evaluated independently of the numeric test (the source has no
`return` between the two pushes). -/
def isDateCol (t : Table) (col : String) : Bool :=
  let s := sampleOf t col
  decide (4 * s.length < 5 * (s.filter dateTest).length) &&
    (lowerHasSub col "time" || lowerHasSub col "date")

/-- `this.numericColumns` after `DataAnalyzer.identifyColumnTypes`. -/
def numericCols (t : Table) : List String :=
  (columnsOf t).filter (isNumericCol t)

/-- `this.dateColumns` after `DataAnalyzer.identifyColumnTypes`. -/
def dateCols (t : Table) : List String :=
  (columnsOf t).filter (isDateCol t)

end DA

/-! JavaScript number semantics, for the places where a claim depends on
`NaN` or division by zero: a JS double is `NaN`, a signed infinity, or a
finite value (modelled exactly as a rational). -/

inductive JSNum where
  | nan : JSNum
  | inf (pos : Bool) : JSNum
  | fin (q : ℚ) : JSNum
deriving DecidableEq, Repr

/-- Models the JS `isNaN` test on a `JSNum`. -/
def jsIsNaN : JSNum → Bool
  | .nan => true
  | _ => false

/-- Lifts `parseFloat`'s result into a `JSNum` (`none` is `NaN`). -/
def parsedJS (c : Cell) : JSNum :=
  match c.parsed with
  | some q => .fin q
  | none => .nan

/-- IEEE-style addition on `JSNum` (signed zeros are irrelevant here). -/
def jsAdd : JSNum → JSNum → JSNum
  | .nan, _ => .nan
  | _, .nan => .nan
  | .inf s, .inf t => if s = t then .inf s else .nan
  | .inf s, .fin _ => .inf s
  | .fin _, .inf t => .inf t
  | .fin a, .fin b => .fin (a + b)

/-- IEEE-style subtraction on `JSNum`. -/
def jsSub : JSNum → JSNum → JSNum
  | .nan, _ => .nan
  | _, .nan => .nan
  | .inf s, .inf t => if s = t then .nan else .inf s
  | .inf s, .fin _ => .inf s
  | .fin _, .inf t => .inf !t
  | .fin a, .fin b => .fin (a - b)

/-- IEEE-style division on `JSNum`: `0/0 = NaN`, `a/0 = ±Infinity` for
`a ≠ 0`, `finite/Infinity = 0`, `Infinity/Infinity = NaN`.  (Division of an
infinity by zero, which involves the sign of zero, does not arise in the
modelled code paths; it is mapped to the positive-zero result.) -/
def jsDiv : JSNum → JSNum → JSNum
  | .nan, _ => .nan
  | _, .nan => .nan
  | .inf _, .inf _ => .nan
  | .inf s, .fin b => if b < 0 then .inf !s else .inf s
  | .fin _, .inf _ => .fin 0
  | .fin a, .fin b =>
    if b = 0 then (if a = 0 then .nan else .inf (decide (0 < a))) else .fin (a / b)

/-- IEEE-style multiplication on `JSNum` (only finite·finite and the `NaN`
cases are exercised by the modelled code). -/
def jsMul : JSNum → JSNum → JSNum
  | .nan, _ => .nan
  | _, .nan => .nan
  | .inf s, .inf t => .inf (s == t)
  | .inf s, .fin b => if b = 0 then .nan else if b < 0 then .inf !s else .inf s
  | .fin a, .inf t => if a = 0 then .nan else if a < 0 then .inf !t else .inf t
  | .fin a, .fin b => .fin (a * b)

/-- Models `array.reduce((a, b) => a + b, 0)` under JS number semantics. -/
def jsListSum (l : List JSNum) : JSNum :=
  l.foldl jsAdd (.fin 0)

/-- The comparison `x < c` for a literal threshold `c`, under JS semantics
(`NaN < c` is false, as is `Infinity < c`; `-Infinity < c` is true). -/
def jsLtF (x : JSNum) (c : ℚ) : Bool :=
  match x with
  | .nan => false
  | .inf s => !s
  | .fin a => decide (a < c)

/-- The comparison `x > 0` under JS semantics (`NaN > 0` is false). -/
def jsGtZero (x : JSNum) : Bool :=
  match x with
  | .nan => false
  | .inf s => s
  | .fin a => decide (0 < a)

/-! Shared statistics helpers.  Both `DataAnalyzer.calculateStats` and
`ComprehensiveDataAnalyzer.calculateDistributionStats` compute, over the
already-parsed value list, the same mean / median / population variance, the
standard deviation `std = Math.sqrt(variance)` and the skewness
`std === 0 ? 0 : (Σ ((v - mean)/std)³) / n`.  Everything rational is kept
computable; only `std` and skewness, which genuinely involve `Math.sqrt`,
live in `ℝ`. -/

/-- Arithmetic mean `values.reduce((a,b) => a+b, 0) / values.length`. -/
def meanOf (l : List ℚ) : ℚ := l.sum / l.length

/-- Population variance `Σ (v - mean)² / n` (the code divides by `N`). -/
def varianceOf (l : List ℚ) : ℚ :=
  ((l.map fun v => (v - meanOf l) ^ 2).sum) / l.length

/-- Third central moment `Σ (v - mean)³ / n`; the source's skewness equals
`m3Of l / std³` whenever `std ≠ 0`. -/
def m3Of (l : List ℚ) : ℚ :=
  ((l.map fun v => (v - meanOf l) ^ 3).sum) / l.length

/-- `std = Math.sqrt(variance)` of both analyzers. -/
noncomputable def stdOf (l : List ℚ) : ℝ := Real.sqrt (varianceOf l)

/-- The skewness computed by both analyzers:
`std === 0 ? 0 : values.reduce((sum, v) => sum + ((v - mean)/std)**3, 0) / values.length`. -/
noncomputable def skewnessOf (l : List ℚ) : ℝ :=
  if stdOf l = 0 then 0
  else ((l.map fun v => (((v : ℝ) - (meanOf l : ℝ)) / stdOf l) ^ 3).sum) / l.length

/-- The sorted copy `[...values].sort((a, b) => a - b)` (a stable comparison
sort, modelled by insertion sort over `≤`). -/
def sortedValues (l : List ℚ) : List ℚ :=
  l.insertionSort (· ≤ ·)

/-- The median of both analyzers: mean of the two central elements of the
sorted copy for even length, the middle element for odd length. -/
def medianOf (l : List ℚ) : ℚ :=
  let s := sortedValues l
  if s.length % 2 = 0 then
    ((s.get? (s.length / 2 - 1)).getD 0 + (s.get? (s.length / 2)).getD 0) / 2
  else (s.get? (s.length / 2)).getD 0

/-- `Math.min(...values)` (the call sites guarantee a nonempty list; on an
empty list JS would give `Infinity`, modelled here by the default `0`,
which no modelled path reaches). -/
def minOf (l : List ℚ) : ℚ :=
  match l with
  | [] => 0
  | v :: rest => rest.foldl min v

/-- `Math.max(...values)`. -/
def maxOf (l : List ℚ) : ℚ :=
  match l with
  | [] => 0
  | v :: rest => rest.foldl max v

/-! Pearson-correlation building blocks, shared by
`DataAnalyzer.pearsonCorrelation` and `ComprehensiveDataAnalyzer.calculateCorrelation`
(the two method bodies are identical except for the sentinel returned in the
degenerate cases).  The source computes
`r = (nΣxy − ΣxΣy) / Math.sqrt((nΣx² − (Σx)²) · (nΣy² − (Σy)²))`.
We carry the numerator `corrNum` and the radicand `corrDen2` (the square of
the denominator) exactly; by the Cauchy–Schwarz inequality
(`sq_sum_le_card_mul_sum_sq` below) `corrDen2 ≥ 0`, so the JS test
`denominator === 0` is exactly `corrDen2 = 0`, and comparisons of `|r|`
against a threshold `c` amount to `corrNum² > c² · corrDen2`. -/

/-- The paired samples
`this.data.map(row => ({x: parseFloat(row[col1]), y: parseFloat(row[col2])})).filter(p => !isNaN(p.x) && !isNaN(p.y))`. -/
def pairsOf (t : Table) (c1 c2 : String) : List (ℚ × ℚ) :=
  t.filterMap fun r =>
    match (getCell r c1).parsed, (getCell r c2).parsed with
    | some x, some y => some (x, y)
    | _, _ => none

/-- `n * sumXY - sumX * sumY` over the paired samples. -/
def corrNum (ps : List (ℚ × ℚ)) : ℚ :=
  ps.length * (ps.map fun p => p.1 * p.2).sum
    - (ps.map Prod.fst).sum * (ps.map Prod.snd).sum

/-- `(n * sumXX - sumX * sumX) * (n * sumYY - sumY * sumY)`, the radicand of
the correlation denominator. -/
def corrDen2 (ps : List (ℚ × ℚ)) : ℚ :=
  (ps.length * (ps.map fun p => p.1 ^ 2).sum - (ps.map Prod.fst).sum ^ 2)
    * (ps.length * (ps.map fun p => p.2 ^ 2).sum - (ps.map Prod.snd).sum ^ 2)

/-- A reported correlation: the source stores the coefficient
`r = num / Math.sqrt(den2)`; the record keeps the two exact components, so
`r² = num² / den2` and `|r|`-comparisons are cross-multiplications. -/
structure CorrRecord where
  column1 : String
  column2 : String
  num : ℚ
  den2 : ℚ
deriving DecidableEq, Repr

/-- The squared coefficient `r² = num² / den2` of a stored record (every
emitted record has `den2 > 0`, see `corrRecord_den2_pos`). -/
def CorrRecord.absSq (rec : CorrRecord) : ℚ := rec.num ^ 2 / rec.den2

/-- Descending order of `|r|` between two records, the order imposed by the
comparator `(a, b) => Math.abs(b.correlation) - Math.abs(a.correlation)`:
`|r₁| ≥ |r₂|` iff `r₁² ≥ r₂²`. -/
def corrGe (a b : CorrRecord) : Prop := b.absSq ≤ a.absSq

instance : DecidableRel corrGe := fun a b =>
  inferInstanceAs (Decidable (b.absSq ≤ a.absSq))

instance : IsTotal CorrRecord corrGe := ⟨fun a b => le_total b.absSq a.absSq⟩

instance : IsTrans CorrRecord corrGe := ⟨fun _ _ _ h1 h2 => le_trans h2 h1⟩

/-- The nested loop `for i ... for j = i+1 ...` enumerating unordered column
pairs in list order. -/
def colPairs : List String → List (String × String)
  | [] => []
  | c :: rest => (rest.map fun c2 => (c, c2)) ++ colPairs rest

namespace DA

/-- `DataAnalyzer.pearsonCorrelation(col1, col2)`: `null` when fewer than two
paired samples exist or when the denominator is zero, otherwise the exact
components `(num, den2)` of the coefficient `num / Math.sqrt(den2)`. -/
def pearson (t : Table) (c1 c2 : String) : Option (ℚ × ℚ) :=
  let ps := pairsOf t c1 c2
  if ps.length < 2 then none
  else if corrDen2 ps = 0 then none
  else some (corrNum ps, corrDen2 ps)

/-- The filtered record list built by `DataAnalyzer.calculateCorrelations`
before sorting; the push condition `Math.abs(correlation) > 0.1` is
`num² > 0.01 · den2`, i.e. `100 · num² > den2`. -/
def corrRecordsRaw (t : Table) : List CorrRecord :=
  (colPairs (numericCols t)).filterMap fun pr =>
    match pearson t pr.1 pr.2 with
    | some (nm, d2) =>
      if 100 * nm ^ 2 > d2 then some ⟨pr.1, pr.2, nm, d2⟩ else none
    | none => none

/-- `DataAnalyzer.calculateCorrelations`: build the filtered records, then
`this.correlations.sort((a, b) => Math.abs(b.correlation) - Math.abs(a.correlation))`. -/
def calculateCorrelations (t : Table) : List CorrRecord :=
  (corrRecordsRaw t).insertionSort corrGe

/-- `DataAnalyzer.calculateVolatility`: per-row `(high - low) / low` over
`parseFloat` of the literal `high` and `low` properties, keeping the
non-`NaN` entries (an infinite entry from `low = 0` is *kept*). -/
def calculateVolatility (t : Table) : List JSNum :=
  if hasColumns t ["high", "low"] then
    (t.map fun r =>
      jsDiv (jsSub (parsedJS (getCell r "high")) (parsedJS (getCell r "low")))
        (parsedJS (getCell r "low"))).filter fun v => !jsIsNaN v
  else []

/-- The average `volatilities.reduce((a, b) => a + b, 0) / volatilities.length`
computed inside `DataAnalyzer.findThemes`; on an empty list this is the JS
`0 / 0 = NaN`. -/
def avgVolatility (t : Table) : JSNum :=
  jsDiv (jsListSum (calculateVolatility t)) (.fin (calculateVolatility t).length)

/-- The trend result of `DataAnalyzer.calculateTrend` (`direction` is one of
`'Upward' | 'Downward' | 'Sideways' | 'Insufficient Data'`). -/
structure Trend where
  direction : String
  slope : ℚ
deriving DecidableEq, Repr

/-- The point list of `DataAnalyzer.calculateTrend`:
`this.data.map((row, index) => ({x: index, y: parseFloat(row[column])})).filter(p => !isNaN(p.y))`. -/
def trendPoints (t : Table) (col : String) : List (ℚ × ℚ) :=
  t.enum.filterMap fun p =>
    ((getCell p.2 col).parsed).map fun y => ((p.1 : ℚ), y)

/-- The OLS slope `(nΣxy − ΣxΣy) / (nΣx² − (Σx)²)`.  The x-values are the
distinct original row indices, so for `n ≥ 2` the denominator is a positive
rational and the `ℚ`-division agrees with the JS one. -/
def slopeOf (ps : List (ℚ × ℚ)) : ℚ :=
  (ps.length * (ps.map fun p => p.1 * p.2).sum - (ps.map Prod.fst).sum * (ps.map Prod.snd).sum)
    / (ps.length * (ps.map fun p => p.1 ^ 2).sum - (ps.map Prod.fst).sum ^ 2)

/-- `DataAnalyzer.calculateTrend(column)`. -/
def calculateTrend (t : Table) (col : String) : Trend :=
  let values := trendPoints t col
  if values.length < 2 then ⟨"Insufficient Data", 0⟩
  else
    let slope := slopeOf values
    ⟨if 1 / 1000 < slope then "Upward"
      else if slope < -(1 / 1000) then "Downward" else "Sideways", slope⟩

/-- The statistics object of `DataAnalyzer.calculateStats` for a nonempty
value list.  The source's `std` and `skewness` fields are `stdOf l` and
`skewnessOf l` of the same list (they involve `Math.sqrt` and are therefore
carried as the `ℝ`-valued functions above); the record keeps their exact
rational determinants `variance` and `m3` instead. -/
structure Stats where
  mean : ℚ
  median : ℚ
  variance : ℚ
  m3 : ℚ
  minV : ℚ
  maxV : ℚ
deriving DecidableEq, Repr

/-- `DataAnalyzer.calculateStats(column)`: `none` models the all-`null`
result `{mean: null, median: null, std: null, skewness: null}` returned for
a column with no parseable values. -/
def calculateStats (t : Table) (col : String) : Option Stats :=
  let values := parseColumn t col
  if values = [] then none
  else some ⟨meanOf values, medianOf values, varianceOf values, m3Of values,
    minOf values, maxOf values⟩

/-- The `|skewness| > 1` test used to classify a distribution:
`skewness = m3 / variance^{3/2}`, so for `variance ≠ 0` it is
`m3² > variance³`, and for `variance = 0` the skewness is `0` (branch of the
source), hence not `> 1`. -/
def skewAbsGt1 (s : Stats) : Bool :=
  decide (s.variance ≠ 0) && decide (s.variance ^ 3 < s.m3 ^ 2)

/-- Distribution label of `DataAnalyzer.findThemes`'s per-column rule:
`Normal` for `|skew| ≤ 1`, otherwise `Right-skewed`/`Left-skewed` by the sign
of the skewness (= sign of `m3`). -/
def distLabel (s : Stats) : String :=
  if skewAbsGt1 s then (if 0 < s.m3 then "Right-skewed" else "Left-skewed")
  else "Normal"

/-- The metrics payload attached to a theme (the source attaches plain
objects; descriptions — fixed template strings around these numbers — are not
modelled). -/
inductive ThemeMetric where
  | noMetric : ThemeMetric
  | volatilityM (avg : JSNum) : ThemeMetric
  | trendM (tr : Trend) : ThemeMetric
  | statsM (s : Stats) : ThemeMetric
deriving DecidableEq, Repr

/-- A theme record of `DataAnalyzer.findThemes` (name, confidence,
indicators, type, metrics). -/
structure Theme where
  name : String
  confidence : ℚ
  indicators : List String
  ttype : String
  metric : ThemeMetric
deriving DecidableEq, Repr

/-- `DataAnalyzer.findThemes`: the fixed, ordered battery of rules. -/
def findThemes (t : Table) : List Theme :=
  (if hasColumns t ["open", "high", "low", "close"] then
    [⟨"Financial Market Data", 95 / 100, ["open", "high", "low", "close"],
      "financial", .noMetric⟩]
  else []) ++
  (if hasColumns t ["volume"] then
    [⟨"Trading Volume Analysis", 9 / 10, ["volume"], "financial", .noMetric⟩]
  else []) ++
  (if dateCols t ≠ [] then
    [⟨"Time Series Data", 85 / 100, dateCols t, "temporal", .noMetric⟩]
  else []) ++
  (if hasColumns t ["high", "low"] then
    [⟨"Price Volatility Patterns", 8 / 10, ["high", "low"], "statistical",
      .volatilityM (avgVolatility t)⟩]
  else []) ++
  (if hasColumns t ["close"] && decide (10 < t.length) then
    let trend := calculateTrend t "close"
    [⟨"Price Trend: " ++ trend.direction,
      if 1 / 1000 < |trend.slope| then 8 / 10 else 5 / 10,
      ["close"], "trend", .trendM trend⟩]
  else []) ++
  ((numericCols t).filterMap fun col =>
    (calculateStats t col).map fun s =>
      ⟨col ++ " Distribution: " ++ distLabel s, 7 / 10, [col], "distribution",
        .statsM s⟩)

/-- The aggregate state left on the analyzer by a successful
`DataAnalyzer.analyzeData` run. -/
structure AnalysisOut where
  numericColumns : List String
  dateColumns : List String
  themes : List Theme
  correlations : List CorrRecord
deriving DecidableEq, Repr

/-- `DataAnalyzer.analyzeData`: throws `'No data to analyze'` when
`!this.data || this.data.length === 0`, otherwise classifies columns, finds
themes and computes correlations (the trailing UX `setTimeout` is pure
delay).  The `Option Table` input models a possibly-`null` `this.data`. -/
def analyzeData (d : Option Table) : Except String AnalysisOut :=
  match d with
  | none => .error "No data to analyze"
  | some t =>
    if t.length = 0 then .error "No data to analyze"
    else .ok ⟨numericCols t, dateCols t, findThemes t, calculateCorrelations t⟩

end DA

namespace CDA

/-! Embedding of `ComprehensiveDataAnalyzer` (file `src/script.js`). -/

/-- The sample drawn by `ComprehensiveDataAnalyzer.identifyColumnTypes`:
`this.data.slice(0, Math.min(100, this.data.length))`, filtered as in the
other variant (`List.take` already clamps at the list length). -/
def sampleOf (t : Table) (col : String) : List Cell :=
  ((t.take 100).map (getCell · col)).filter keptInSample

/-- The numeric test `numericCount / sample.length > 0.7`, i.e.
`10 * k > 7 * n` (false on an empty sample, where JS compares `NaN > 0.7`). -/
def isNumericCol (t : Table) (col : String) : Bool :=
  let s := sampleOf t col
  decide (7 * s.length < 10 * (s.filter (·.numericOk)).length)

/-- The date test `dateCount / sample.length > 0.7` (this variant requires no
name hint; it is only reached when the numeric test failed, thanks to the
`return` statements). -/
def isDateCol (t : Table) (col : String) : Bool :=
  let s := sampleOf t col
  decide (7 * s.length < 10 * (s.filter dateTest).length)

/-- `this.numericColumns` after `ComprehensiveDataAnalyzer.identifyColumnTypes`. -/
def numericCols (t : Table) : List String :=
  (columnsOf t).filter (isNumericCol t)

/-- `this.dateColumns`: columns that fail the numeric test (its `return`
already fired otherwise) and pass the date test. -/
def dateCols (t : Table) : List String :=
  (columnsOf t).filter fun c => !isNumericCol t c && isDateCol t c

/-- `this.categoricalColumns`: the fallback branch. -/
def categoricalCols (t : Table) : List String :=
  (columnsOf t).filter fun c => !isNumericCol t c && !isDateCol t c

/-- Models `(x).toFixed(1)` followed by `parseFloat` of the result: rounding
to one decimal digit (`"NaN"`/`"Infinity"` round-trip to themselves; the
exact-decimal rounding abstracts the double-formatting corner cases of
`toFixed`). -/
def toFixed1 : JSNum → JSNum
  | .nan => .nan
  | .inf s => .inf s
  | .fin q => .fin ((round (q * 10) : ℤ) / 10)

/-- The data-quality aggregate of `ComprehensiveDataAnalyzer.assessDataQuality`:
per-column completeness `(nonNull / totalRows * 100).toFixed(1)`, per-column
distinct-value counts, and the overall score
`Σ parseFloat(completeness) / columns.length` (a `0/0 = NaN` on a column-less
state). -/
structure Quality where
  completeness : List (String × JSNum)
  uniqueness : List (String × ℕ)
  overall : JSNum
deriving DecidableEq, Repr

/-- Completeness of one column under JS semantics. -/
def completenessOf (t : Table) (col : String) : JSNum :=
  toFixed1 (jsMul (jsDiv (.fin ((t.map (getCell · col)).filter keptInSample).length)
    (.fin t.length)) (.fin 100))

/-- Distinct-value count `new Set(nonNullValues).size` (the JS `Set` keys raw
values; cell equality stands in for JS same-value equality here). -/
def uniquenessOf (t : Table) (col : String) : ℕ :=
  ((t.map (getCell · col)).filter keptInSample).dedup.length

/-- `ComprehensiveDataAnalyzer.assessDataQuality`, as a function of the data
and the current `this.columns`. -/
def qualityOf (t : Table) (cols : List String) : Quality :=
  let comp := cols.map fun c => (c, completenessOf t c)
  { completeness := comp
    uniqueness := cols.map fun c => (c, uniquenessOf t c)
    overall := jsDiv (jsListSum (comp.map Prod.snd)) (.fin cols.length) }

/-- `ComprehensiveDataAnalyzer.sumColumn(columnName)`, under JS number
semantics: `this.data.reduce((sum, row) => sum + (isNaN(v) ? 0 : v), 0)`
with `v = parseFloat(row[columnName])`. -/
def sumColumn (t : Table) (col : String) : JSNum :=
  t.foldl (fun sum r =>
    let v := parsedJS (getCell r col)
    jsAdd sum (if jsIsNaN v then .fin 0 else v)) (.fin 0)

/-- The same sum as an exact rational: each cell whose `parseFloat` is `NaN`
contributes `0`. -/
def sumColumnQ (t : Table) (col : String) : ℚ :=
  (t.map fun r => ((getCell r col).parsed).getD 0).sum

/-- `ComprehensiveDataAnalyzer.formatColumnName`: replace `_` by a space,
then uppercase every character that starts a `\b\w` word boundary (here: an
alphanumeric character not preceded by an alphanumeric one). -/
def formatColumnName (s : String) : String :=
  let step := fun (acc : List Char × Bool) (c : Char) =>
    let c := if 95 = c.toNat then ' ' else c
    let isWord := c.isAlphanum
    ((if isWord && !acc.2 then c.toUpper else c) :: acc.1, isWord)
  String.mk (s.toList.foldl step ([], false)).1.reverse

/-- One executive-summary key metric; the source renders `value` to a locale
string (and prefixes `$` for the spend metric), which is presentation only. -/
structure KeyMetric where
  label : String
  value : JSNum
  mtype : String
deriving DecidableEq, Repr

/-- The executive summary built by
`ComprehensiveDataAnalyzer.generateExecutiveSummary`. -/
structure ExecSummary where
  totalRows : ℕ
  totalColumns : ℕ
  numericColumns : ℕ
  dateColumns : ℕ
  categoricalColumns : ℕ
  dataQualityScore : JSNum
  keyMetrics : List KeyMetric
deriving DecidableEq, Repr

/-- The key-metric list: the ad-spend branch when
`hasColumns(['impressions','clicks','spent'])`, the generic
first-four-numeric-sums branch otherwise.  The CTR is
`totalImpressions > 0 ? totalClicks / totalImpressions * 100 : 0`. -/
def keyMetricsOf (t : Table) (numCols : List String) : List KeyMetric :=
  if hasColumns t ["impressions", "clicks", "spent"] then
    let imp := sumColumn t "impressions"
    let clk := sumColumn t "clicks"
    let spn := sumColumn t "spent"
    let ctr := if jsGtZero imp then jsMul (jsDiv clk imp) (.fin 100) else .fin 0
    [⟨"Total Impressions", imp, "count"⟩, ⟨"Total Clicks", clk, "count"⟩,
     ⟨"Total Spend", spn, "currency"⟩, ⟨"Overall CTR", ctr, "percentage"⟩]
  else
    (numCols.take 4).map fun col =>
      ⟨formatColumnName col, sumColumn t col, "count"⟩

/-- `ComprehensiveDataAnalyzer.generateExecutiveSummary`, as a function of
the data, the classification fields, and the quality result it reads from
`this.analysisResults.dataQuality.overall`. -/
def execSummaryOf (t : Table) (cols numCols dCols catCols : List String)
    (q : Quality) : ExecSummary :=
  { totalRows := t.length
    totalColumns := cols.length
    numericColumns := numCols.length
    dateColumns := dCols.length
    categoricalColumns := catCols.length
    dataQualityScore := q.overall
    keyMetrics := keyMetricsOf t numCols }

/-- The distribution statistics of
`ComprehensiveDataAnalyzer.calculateDistributionStats`, for a nonempty value
list.  As with `DA.Stats`, the source's `std` and `skewness` fields are the
functions `stdOf` and `skewnessOf` of the same list; the record carries their
exact rational determinants `variance` and `m3`, plus the nearest-rank
quartiles `sorted[Math.floor(n * 0.25)]` and `sorted[Math.floor(n * 0.75)]`. -/
structure StatsQ where
  mean : ℚ
  median : ℚ
  variance : ℚ
  m3 : ℚ
  minV : ℚ
  maxV : ℚ
  q1 : ℚ
  q3 : ℚ
deriving DecidableEq, Repr

/-- Quartile index `Math.floor(n * 0.25)`. -/
def q1Idx (n : ℕ) : ℕ := n / 4

/-- Quartile index `Math.floor(n * 0.75)`. -/
def q3Idx (n : ℕ) : ℕ := 3 * n / 4

/-- `ComprehensiveDataAnalyzer.calculateDistributionStats(values)`; `none`
models the `null` returned for an empty value list.  (Both quartile indices
are `< n` for `n ≥ 1`, so the `getD` defaults are never used.) -/
def calculateDistributionStats (values : List ℚ) : Option StatsQ :=
  if values = [] then none
  else
    let s := sortedValues values
    some ⟨meanOf values, medianOf values, varianceOf values, m3Of values,
      minOf values, maxOf values,
      (s.get? (q1Idx s.length)).getD 0, (s.get? (q3Idx s.length)).getD 0⟩

/-- `ComprehensiveDataAnalyzer.detectOutliers(values)`: strict IQR fences
`value < q1 - 1.5*iqr || value > q3 + 1.5*iqr`. -/
def detectOutliers (values : List ℚ) : List ℚ :=
  match calculateDistributionStats values with
  | none => []
  | some s =>
    let iqr := s.q3 - s.q1
    let lowerBound := s.q1 - 1.5 * iqr
    let upperBound := s.q3 + 1.5 * iqr
    values.filter fun v => decide (v < lowerBound) || decide (upperBound < v)

/-- `ComprehensiveDataAnalyzer.calculateCorrelation(col1, col2)`: the source
returns the number `0` both when fewer than two paired samples exist and
when the denominator is zero; since the caller keeps a pair only when
`Math.abs(correlation) > 0.3`, the sentinel is modelled as `none`. -/
def calculateCorrelation (t : Table) (c1 c2 : String) : Option (ℚ × ℚ) :=
  let ps := pairsOf t c1 c2
  if ps.length < 2 then none
  else if corrDen2 ps = 0 then none
  else some (corrNum ps, corrDen2 ps)

/-- `ComprehensiveDataAnalyzer.performCorrelationAnalysis`: every pair with
`Math.abs(correlation) > 0.3` (that is, `100 · num² > 9 · den2`), in bare
loop order — this variant performs no sort. -/
def significantCorrelations (t : Table) (numCols : List String) : List CorrRecord :=
  (colPairs numCols).filterMap fun pr =>
    match calculateCorrelation t pr.1 pr.2 with
    | some (nm, d2) =>
      if 100 * nm ^ 2 > 9 * d2 then some ⟨pr.1, pr.2, nm, d2⟩ else none
    | none => none

end CDA

namespace CDA

/-- Descending order on rows by `parseFloat(row[primaryMetric])`, the order
imposed by the comparator `(a, b) => parseFloat(b[m]) - parseFloat(a[m])`
in `performPerformanceAnalysis` (a `NaN` comparator value acts as a tie). -/
def rowGe (m : String) (a b : Row) : Prop :=
  match (getCell a m).parsed, (getCell b m).parsed with
  | some x, some y => y ≤ x
  | _, _ => True

instance (m : String) : DecidableRel (rowGe m) := fun a b => by
  unfold rowGe
  exact match (getCell a m).parsed, (getCell b m).parsed with
    | some _, some _ => inferInstanceAs (Decidable (_ ≤ _))
    | some _, none => inferInstanceAs (Decidable True)
    | none, _ => inferInstanceAs (Decidable True)

/-- The efficiency metrics of
`ComprehensiveDataAnalyzer.calculateEfficiencyMetrics`; a `none` field models
a property that was never assigned on the `efficiency` object. -/
structure Efficiency where
  cpc : Option ℚ
  costPerConversion : Option ℚ
  roi : Option ℚ
deriving DecidableEq, Repr

/-- `ComprehensiveDataAnalyzer.calculateEfficiencyMetrics` (the guarded
ratios use the exact-rational sums, justified by `sumColumn_eq_fin`). -/
def calculateEfficiencyMetrics (t : Table) : Efficiency :=
  { cpc :=
      if hasColumns t ["spent", "clicks"] then
        some (if 0 < sumColumnQ t "clicks"
          then sumColumnQ t "spent" / sumColumnQ t "clicks" else 0)
      else none
    costPerConversion :=
      if hasColumns t ["spent", "approved_conversion"] then
        some (if 0 < sumColumnQ t "approved_conversion"
          then sumColumnQ t "spent" / sumColumnQ t "approved_conversion" else 0)
      else none
    roi :=
      if hasColumns t ["spent", "approved_conversion"] then
        some (if 0 < sumColumnQ t "spent"
          then sumColumnQ t "approved_conversion" / sumColumnQ t "spent" else 0)
      else none }

/-- The result of `ComprehensiveDataAnalyzer.performPerformanceAnalysis`
(the `trends` and `insights` arrays are created empty and never populated,
so they are omitted). -/
structure Performance where
  topPerformers : List Row
  efficiency : Efficiency
deriving DecidableEq, Repr

/-- `performPerformanceAnalysis`: top ten of a sorted copy of the data
(descending by the first numeric column), plus the efficiency metrics when
`hasColumns(['spent','clicks']) || hasColumns(['cost','revenue'])`. -/
def performanceOf (t : Table) (numCols : List String) : Performance :=
  { topPerformers :=
      match numCols with
      | [] => []
      | m :: _ => (t.insertionSort (rowGe m)).take 10
    efficiency :=
      if hasColumns t ["spent", "clicks"] || hasColumns t ["cost", "revenue"] then
        calculateEfficiencyMetrics t
      else ⟨none, none, none⟩ }

/-- Appends a row to its group (or opens a new group at the end), preserving
the first-appearance order of keys, as JS object-property insertion does in
`ComprehensiveDataAnalyzer.groupBy`.  (JS keys the groups by the
string-coercion of the cell value; cell equality stands in for that here.) -/
def pushGroup (k : Cell) (r : Row) : List (Cell × List Row) → List (Cell × List Row)
  | [] => [(k, [r])]
  | (k', rs) :: rest =>
    if k' = k then (k', rs ++ [r]) :: rest else (k', rs) :: pushGroup k r rest

/-- `ComprehensiveDataAnalyzer.groupBy(column)`. -/
def groupBy (t : Table) (col : String) : List (Cell × List Row) :=
  t.foldl (fun acc r => pushGroup (getCell r col) r acc) []

/-- The demographic-column filter of `performDemographicAnalysis`:
categorical columns whose lowercase name contains one of the fixed tokens. -/
def demoColumns (catCols : List String) : List String :=
  catCols.filter fun col =>
    (["age", "gender", "location", "segment", "category", "type"]).any fun d =>
      lowerHasSub col d

/-- The `{sum, avg, count}` record of `calculateSegmentPerformance` for one
numeric column within one segment. -/
structure SegMetric where
  sum : ℚ
  avg : ℚ
  count : ℕ
deriving DecidableEq, Repr

/-- `ComprehensiveDataAnalyzer.calculateSegmentPerformance(column, segments)`. -/
def segmentPerformance (numCols : List String) (segments : List (Cell × List Row)) :
    List (Cell × List (String × SegMetric)) :=
  segments.map fun seg =>
    (seg.1, numCols.map fun numCol =>
      let values := seg.2.filterMap fun r => (getCell r numCol).parsed
      (numCol, ⟨values.sum,
        if 0 < values.length then values.sum / values.length else 0,
        values.length⟩))

instance : DecidableEq (Cell × List Row) := inferInstance

instance : DecidableEq (List (Cell × List Row)) := inferInstance

instance : DecidableEq (Cell × List (String × SegMetric)) := inferInstance

instance : DecidableEq (List (Cell × List (String × SegMetric))) := inferInstance

/-- The result of `ComprehensiveDataAnalyzer.performDemographicAnalysis`
(the `insights` array is never populated). -/
structure Demographics where
  segments : List (String × List (Cell × List Row))
  performance : List (String × List (Cell × List (String × SegMetric)))
deriving DecidableEq, Repr

/-- `performDemographicAnalysis`: per demographic column, the groups and —
when numeric columns exist — the per-segment metrics. -/
def demographicsOf (t : Table) (catCols numCols : List String) : Demographics :=
  let demoCols := demoColumns catCols
  { segments := demoCols.map fun col => (col, groupBy t col)
    performance :=
      if numCols ≠ [] then
        demoCols.map fun col => (col, segmentPerformance numCols (groupBy t col))
      else [] }

/-- One entry of the time series built by `createTimeSeriesData`: the parsed
date and, per numeric column, `parseFloat(row[col]) || 0`. -/
structure TSEntry where
  date : ℚ
  vals : List (String × ℚ)
deriving DecidableEq, Repr

/-- Ascending order by date, the comparator `(a, b) => a.date - b.date`. -/
def tsLe (a b : TSEntry) : Prop := a.date ≤ b.date

instance : DecidableRel tsLe := fun a b =>
  inferInstanceAs (Decidable (a.date ≤ b.date))

/-- `ComprehensiveDataAnalyzer.createTimeSeriesData(dateColumn)`: rows whose
date parses (no year bound here), with every numeric column defaulted through
`|| 0`, sorted ascending by date. -/
def createTimeSeriesData (t : Table) (dateCol : String) (numCols : List String) :
    List TSEntry :=
  (t.filterMap fun r =>
    ((getCell r dateCol).dateVal).map fun d =>
      TSEntry.mk d (numCols.map fun c => (c, ((getCell r c).parsed).getD 0))
  ).insertionSort tsLe

/-- The trend object of `ComprehensiveDataAnalyzer.calculateTrends`.  In the
two degenerate branches the source returns `{direction: ...}` only, so the
`slope` and `metric` properties are absent (`none`), not `0`. -/
structure Trend where
  direction : String
  slope : Option ℚ
  metric : Option String
deriving DecidableEq, Repr

/-- `ComprehensiveDataAnalyzer.calculateTrends(timeSeriesData)`: OLS over
`(index, item[primaryMetric])` with thresholds `±0.001`, directions
`increasing`/`declining`/`stable`. -/
def calculateTrends (ts : List TSEntry) (numCols : List String) : Trend :=
  if ts.length < 2 then ⟨"insufficient_data", none, none⟩
  else
    match numCols with
    | [] => ⟨"no_numeric_data", none, none⟩
    | m :: _ =>
      let values := ts.enum.map fun p => ((p.1 : ℚ), (p.2.vals.lookup m).getD 0)
      let slope := DA.slopeOf values
      ⟨if 1 / 1000 < slope then "increasing"
        else if slope < -(1 / 1000) then "declining" else "stable",
        some slope, some m⟩

/-- The result of `performTemporalAnalysis` (`trends` stays the empty object
when no date column exists, modelled by `none`; `seasonality` and `insights`
are never populated). -/
structure Temporal where
  trends : Option Trend
deriving DecidableEq, Repr

/-- `ComprehensiveDataAnalyzer.performTemporalAnalysis`. -/
def temporalOf (t : Table) (dCols numCols : List String) : Temporal :=
  match dCols with
  | [] => ⟨none⟩
  | dateCol :: _ => ⟨some (calculateTrends (createTimeSeriesData t dateCol numCols) numCols)⟩

/-- The result of `performStatisticalAnalysis`: per numeric column the
distribution statistics and the outlier list. -/
structure Statistical where
  distributions : List (String × Option StatsQ)
  outliers : List (String × List ℚ)
deriving DecidableEq, Repr

/-- `ComprehensiveDataAnalyzer.performStatisticalAnalysis`. -/
def statisticalOf (t : Table) (numCols : List String) : Statistical :=
  { distributions := numCols.map fun col =>
      (col, calculateDistributionStats (parseColumn t col))
    outliers := numCols.map fun col => (col, detectOutliers (parseColumn t col)) }

/-- An advanced insight of `generateAdvancedInsights`; each constructor
carries the data-dependent numbers interpolated into the fixed title and
description strings of the source. -/
inductive Insight where
  | qualityConcern (avgQuality : JSNum) : Insight
  | roiOpportunity (roi : ℚ) : Insight
  | strongCorrelations (count : ℕ) : Insight
deriving DecidableEq, Repr

/-- `ComprehensiveDataAnalyzer.generateAdvancedInsights`: quality warning
when `overall < 80` (false for `NaN`); ROI opportunity when `efficiency.roi`
is present and truthy (nonzero) and `< 1`; strong-correlation note when some
stored pair has `|r| > 0.7` (that is, `100 · num² > 49 · den2`). -/
def insightsOf (q : Quality) (perf : Performance) (corrs : List CorrRecord) :
    List Insight :=
  (if jsLtF q.overall 80 then [.qualityConcern q.overall] else []) ++
  (match perf.efficiency.roi with
    | some r => if r ≠ 0 ∧ r < 1 then [.roiOpportunity r] else []
    | none => []) ++
  (let strong := corrs.filter fun c => decide (49 * c.den2 < 100 * c.num ^ 2)
   if 0 < strong.length then [.strongCorrelations strong.length] else [])

/-- Descending order of segment entries by
`(b[primaryMetric]?.avg || 0) - (a[primaryMetric]?.avg || 0)`. -/
def segGe (m : String) (a b : Cell × List (String × SegMetric)) : Prop :=
  ((b.2.lookup m).map SegMetric.avg).getD 0 ≤ ((a.2.lookup m).map SegMetric.avg).getD 0

instance (m : String) : DecidableRel (segGe m) := fun a b =>
  inferInstanceAs
    (Decidable (((b.2.lookup m).map SegMetric.avg).getD 0 ≤
      ((a.2.lookup m).map SegMetric.avg).getD 0))

/-- `ComprehensiveDataAnalyzer.findBestPerformingSegments`: per demographic
column, the key of the best segment by average primary metric. -/
def bestPerformingSegments
    (perf : List (String × List (Cell × List (String × SegMetric))))
    (numCols : List String) : List (String × Cell) :=
  match numCols with
  | [] => []
  | m :: _ =>
    perf.filterMap fun pr =>
      match pr.2.insertionSort (segGe m) with
      | [] => none
      | best :: _ => some (pr.1, best.1)

/-- A recommendation of `generateRecommendations`; each constructor carries
the data the source interpolates into its fixed priority/title/description
strings. -/
inductive Recommendation where
  | focusSegments (best : List (String × Cell)) : Recommendation
  | addressDecline : Recommendation
  | improveCollection (cols : List String) : Recommendation
deriving DecidableEq, Repr

/-- `ComprehensiveDataAnalyzer.generateRecommendations`:
`demographics.performance` is always a (truthy) object, so the segment rule
runs whenever `findBestPerformingSegments` is nonempty; the declining-trend
rule fires on `trends.direction === 'declining'`; the collection rule on
columns with completeness `< 70` (false for `NaN`). -/
def recommendationsOf (demo : Demographics) (temp : Temporal) (q : Quality)
    (numCols : List String) : List Recommendation :=
  (match bestPerformingSegments demo.performance numCols with
    | [] => []
    | best => [.focusSegments best]) ++
  (match temp.trends with
    | some tr => if tr.direction = "declining" then [.addressDecline] else []
    | none => []) ++
  (let lowQ := (q.completeness.filter fun pr => jsLtF pr.2 70).map Prod.fst
   if lowQ ≠ [] then [.improveCollection lowQ] else [])

/-- The `this.analysisResults` aggregate; every field starts `undefined`
(`none`) on a fresh analyzer and is assigned by its analysis step. -/
structure Results where
  dataQuality : Option Quality
  executiveSummary : Option ExecSummary
  performance : Option Performance
  demographics : Option Demographics
  temporal : Option Temporal
  statistical : Option Statistical
  correlations : Option (List CorrRecord)
  advancedInsights : Option (List Insight)
  recommendations : Option (List Recommendation)
deriving DecidableEq, Repr

/-- The empty `this.analysisResults = {}` of the constructor. -/
def emptyResults : Results := ⟨none, none, none, none, none, none, none, none, none⟩

/-- The mutable instance state of a `ComprehensiveDataAnalyzer` that the
analysis pipeline reads and writes. -/
structure CState where
  data : Table
  columns : List String
  numericColumns : List String
  dateColumns : List String
  categoricalColumns : List String
  analysisResults : Results
deriving DecidableEq, Repr

/-- The state of a freshly constructed analyzer holding `t` as its parsed
data (constructor fields `columns = numericColumns = ... = []`,
`analysisResults = {}`). -/
def freshState (t : Table) : CState := ⟨t, [], [], [], [], emptyResults⟩

/-- `ComprehensiveDataAnalyzer.identifyColumnTypes` as a state step: on an
empty table the early `return` leaves all classification fields untouched. -/
def classifyStep (s : CState) : CState :=
  if s.data.length = 0 then s
  else
    { s with
      columns := columnsOf s.data
      numericColumns := numericCols s.data
      dateColumns := dateCols s.data
      categoricalColumns := categoricalCols s.data }

/-- `ComprehensiveDataAnalyzer.performComprehensiveAnalysis`: the full
pipeline, in source order (the trailing UX `setTimeout` is pure delay).
Note the absence of any empty-table guard: every step still runs and stores
its result. -/
def runAnalysis (s : CState) : CState :=
  let s1 := classifyStep s
  let q := qualityOf s1.data s1.columns
  let es := execSummaryOf s1.data s1.columns s1.numericColumns s1.dateColumns
    s1.categoricalColumns q
  let perf := performanceOf s1.data s1.numericColumns
  let demo := demographicsOf s1.data s1.categoricalColumns s1.numericColumns
  let temp := temporalOf s1.data s1.dateColumns s1.numericColumns
  let stat := statisticalOf s1.data s1.numericColumns
  let corrs := significantCorrelations s1.data s1.numericColumns
  let ins := insightsOf q perf corrs
  let recs := recommendationsOf demo temp q s1.numericColumns
  { s1 with analysisResults :=
      ⟨some q, some es, some perf, some demo, some temp, some stat, some corrs,
        some ins, some recs⟩ }

end CDA

/-! Concrete inputs used by the counterexamples and witnesses below.  Each
cell constructor documents a raw string it abstracts. -/

/-- A cell holding a plain numeric string that is not a parseable date
(for example `"1.5"`): `parseFloat` and the `isFinite` coercion succeed,
`new Date` fails. -/
def nCell (q : ℚ) : Cell := ⟨some q, true, none, false, false⟩

/-- A cell holding a non-numeric, non-date string such as `"x"`:
`parseFloat` yields `NaN`, the date parse fails, and the cell is nonempty. -/
def badCell : Cell := ⟨none, false, none, false, false⟩

/-- A cell holding the string `"2020"`: numeric (`parseFloat` gives `2020`,
`isFinite("2020")` holds) and at the same time a valid date
(`new Date("2020")` is 2020-01-01T00:00:00Z, timestamp `1577836800000`,
year `2020 > 1900`). -/
def yearCell : Cell := ⟨some 2020, true, some 1577836800000, true, false⟩

/-- One-row table whose single column is named `time` and holds `"2020"`:
for `DataAnalyzer` the column passes both the numeric test (fraction
`1 > 0.8`) and the date test (fraction `1 > 0.8`, and the name contains
`time`). -/
def tClassify : Table := [[("time", yearCell)]]

/-- A row of the three-numeric-column table below. -/
def rowABC (a b c : ℚ) : Row := [("a", nCell a), ("b", nCell b), ("c", nCell c)]

/-- Table with columns `a = [1,2,3,4]`, `b = [1,3,2,4]`, `c = [1,2,3,4]`:
the correlations are `r(a,b) = 0.8`, `r(a,c) = 1`, `r(b,c) = 0.8`, all above
the `0.3` threshold, so `ComprehensiveDataAnalyzer` stores them in loop
order `[0.8, 1, 0.8]` — not sorted by strength. -/
def tUnsorted : Table := [rowABC 1 1 1, rowABC 2 3 2, rowABC 3 2 3, rowABC 4 4 4]

/-- Table with columns `x = [1, 2]` and `y = [3, 3]`: the `y` factor of the
correlation denominator is `2·18 − 6² = 0`, so the radicand is `0`. -/
def tZeroDen : Table :=
  [[("x", nCell 1), ("y", nCell 3)], [("x", nCell 2), ("y", nCell 3)]]

/-- Table with a constant numeric column `v = [5,5,5,5]`. -/
def tConst : Table :=
  [[("v", nCell 5)], [("v", nCell 5)], [("v", nCell 5)], [("v", nCell 5)]]

/-- Table with a numeric column `v = [1, 2]`: two trend points of slope `1`. -/
def tUp : Table := [[("v", nCell 1)], [("v", nCell 2)]]

/-- One-row table whose `high` and `low` cells are unparseable strings: the
columns are present, but the volatility list filters to `[]` and its average
is the JS `0 / 0 = NaN`. -/
def tBadVol : Table := [[("high", badCell), ("low", badCell)]]

/-- One-row table with `high = 12`, `low = 10`: one finite volatility
`(12 − 10) / 10 = 1/5`. -/
def tGoodVol : Table := [[("high", nCell 12), ("low", nCell 10)]]

/-- The distribution statistics of `[1,2,3,4,7]` (so `q3 + 1.5·IQR = 7`
falls exactly on the last value). -/
def statsAtFence : CDA.StatsQ :=
  ⟨17/5, 3, 106/25, 756/125, 1, 7, 2, 4⟩

/-- The distribution statistics of `[1,2,3,4,8]` (the last value is strictly
above the upper fence `7`). -/
def statsAboveFence : CDA.StatsQ :=
  ⟨18/5, 3, 146/25, 1584/125, 1, 8, 2, 4⟩

/-! Helper lemmas. -/

/-- The Cauchy–Schwarz inequality `(Σ x)² ≤ n · Σ x²` for a list: each
factor of the correlation radicand `corrDen2` is nonnegative, so the JS
test `Math.sqrt(den2) === 0` is exactly `den2 = 0`. -/
theorem list_sq_sum_le_len_mul_sum_sq (l : List ℚ) :
    l.sum ^ 2 ≤ l.length * (l.map fun v => v ^ 2).sum := by
  induction l with
  | nil => simp
  | cons x xs ih =>
    simp only [List.sum_cons, List.map_cons, List.length_cons]
    push_cast
    rcases Nat.eq_zero_or_pos xs.length with h0 | hpos
    · have hnil : xs = [] := List.length_eq_zero.mp h0
      subst hnil
      simp
    · have hn0 : (0:ℚ) < (xs.length : ℚ) := by exact_mod_cast hpos
      set n : ℚ := (xs.length : ℚ) with hn
      set S : ℚ := xs.sum with hS
      set Q : ℚ := (List.map (fun v => v ^ 2) xs).sum with hQ
      have hA : 0 ≤ n * Q - S ^ 2 := by linarith [ih]
      have h1 : 0 ≤ (n * x - S) ^ 2 + (n + 1) * (n * Q - S ^ 2) := by
        have h1a : 0 ≤ (n + 1) * (n * Q - S ^ 2) := mul_nonneg (by linarith) hA
        nlinarith [sq_nonneg (n * x - S)]
      have h2 : n * ((n + 1) * (x ^ 2 + Q) - (x + S) ^ 2)
          = (n * x - S) ^ 2 + (n + 1) * (n * Q - S ^ 2) := by ring
      have hW : 0 ≤ (n + 1) * (x ^ 2 + Q) - (x + S) ^ 2 :=
        nonneg_of_mul_nonneg_right (h2 ▸ h1) hn0
      linarith [hW]

/-- Both factors of the correlation radicand are nonnegative, hence so is
their product. -/
theorem corrDen2_nonneg (ps : List (ℚ × ℚ)) : 0 ≤ corrDen2 ps := by
  have hx := list_sq_sum_le_len_mul_sum_sq (ps.map Prod.fst)
  have hy := list_sq_sum_le_len_mul_sum_sq (ps.map Prod.snd)
  simp only [List.length_map, List.map_map, Function.comp_def] at hx hy
  unfold corrDen2
  apply mul_nonneg
  · linarith [hx]
  · linarith [hy]

/-! ### Claim C1 — column-type classification exclusivity -/

/-- Claim C1, counterexample: classification is *not* mutually exclusive in
`DataAnalyzer.identifyColumnTypes`.  On the one-row table whose column
`time` holds the string `"2020"`, the column lands in the numeric list *and*
in the date list (this variant keeps no categorical list at all). -/
theorem c1_counterexample :
    "time" ∈ DA.numericCols tClassify ∧ "time" ∈ DA.dateCols tClassify := by
  decide

/-- Claim C1, amended: in `ComprehensiveDataAnalyzer.identifyColumnTypes`
(whose branches `return` after the first successful test), every column of
the loaded table is assigned to exactly one of the numeric, date and
categorical lists.  The `DataAnalyzer` variant does not have this property
(see `c1_counterexample`). -/
theorem c1_theorem (t : Table) (col : String) (h : col ∈ columnsOf t) :
    (col ∈ CDA.numericCols t ∧ col ∉ CDA.dateCols t ∧ col ∉ CDA.categoricalCols t) ∨
    (col ∉ CDA.numericCols t ∧ col ∈ CDA.dateCols t ∧ col ∉ CDA.categoricalCols t) ∨
    (col ∉ CDA.numericCols t ∧ col ∉ CDA.dateCols t ∧ col ∈ CDA.categoricalCols t) := by
  by_cases h1 : CDA.isNumericCol t col <;> by_cases h2 : CDA.isDateCol t col <;>
    simp [CDA.numericCols, CDA.dateCols, CDA.categoricalCols, List.mem_filter, h, h1, h2]

/-- Claim C1, witness: on the table `tUnsorted`, the column `a` is numeric
and in no other class. -/
theorem c1_witness :
    "a" ∈ columnsOf tUnsorted ∧
    (("a" ∈ CDA.numericCols tUnsorted ∧ "a" ∉ CDA.dateCols tUnsorted ∧
        "a" ∉ CDA.categoricalCols tUnsorted) ∨
      ("a" ∉ CDA.numericCols tUnsorted ∧ "a" ∈ CDA.dateCols tUnsorted ∧
        "a" ∉ CDA.categoricalCols tUnsorted) ∨
      ("a" ∉ CDA.numericCols tUnsorted ∧ "a" ∉ CDA.dateCols tUnsorted ∧
        "a" ∈ CDA.categoricalCols tUnsorted)) :=
  ⟨by decide, c1_theorem tUnsorted "a" (by decide)⟩

/-! ### Claim C2 — empty-table handling of the analysis entry points -/

/-- Claim C2: `DataAnalyzer.analyzeData` does fail fast with the structural
error `'No data to analyze'` on an empty (or absent) table — but the other
entry point, `ComprehensiveDataAnalyzer.performComprehensiveAnalysis`, has no
such guard: on an empty table it runs to completion and stores a full
`analysisResults` aggregate whose overall data-quality score is the JS
`0 / 0 = NaN`, which the renderer then displays. -/
theorem c2_theorem :
    DA.analyzeData (some []) = .error "No data to analyze" ∧
    DA.analyzeData none = .error "No data to analyze" ∧
    (CDA.runAnalysis (CDA.freshState [])).analysisResults.dataQuality
      = some ⟨[], [], .nan⟩ ∧
    ((CDA.runAnalysis (CDA.freshState [])).analysisResults.executiveSummary).isSome
      = true := by
  refine ⟨rfl, rfl, by decide, by decide⟩

/-! ### Claim C3 — ordering of the emitted correlation records

The stored coefficient is `r = num / Math.sqrt(den2)` with `den2 > 0` for
every emitted record (claim C4 below), so `|r₁| ≥ |r₂|` is exactly
`r₁² ≥ r₂²`, the relation `corrGe` on the squared coefficients
`CorrRecord.absSq`. -/

/-- Claim C3, counterexample: `ComprehensiveDataAnalyzer.performCorrelationAnalysis`
performs no sort.  On `tUnsorted` it stores the records for the pairs
`(a,b), (a,c), (b,c)` with `|r| = 0.8, 1, 0.8` in that (unsorted) order. -/
theorem c3_counterexample :
    ¬ List.Sorted corrGe
      (CDA.significantCorrelations tUnsorted (CDA.numericCols tUnsorted)) := by
  decide

/-- Claim C3, amended: `DataAnalyzer.calculateCorrelations` does sort its
records in descending order of `|coefficient|`; the comprehensive variant
leaves them in pair-enumeration order (see `c3_counterexample`). -/
theorem c3_theorem (t : Table) :
    List.Sorted corrGe (DA.calculateCorrelations t) :=
  List.sorted_insertionSort corrGe (DA.corrRecordsRaw t)

/-! ### Claim C4 — zero-denominator pairs are excluded -/

/-- Every record in the pre-sort list of `DataAnalyzer.calculateCorrelations`
records the exact Pearson components of its column pair, as returned by a
successful `pearsonCorrelation` call. -/
theorem mem_corrRecordsRaw (t : Table) (rec : CorrRecord)
    (hm : rec ∈ DA.corrRecordsRaw t) :
    DA.pearson t rec.column1 rec.column2 = some (rec.num, rec.den2) := by
  unfold DA.corrRecordsRaw at hm
  rcases List.mem_filterMap.mp hm with ⟨pr, _, hf⟩
  cases hp : DA.pearson t pr.1 pr.2 with
  | none => rw [hp] at hf; simp at hf
  | some nd =>
    rw [hp] at hf
    by_cases hif : 100 * nd.1 ^ 2 > nd.2
    · simp only [hif, if_pos] at hf
      cases hf
      exact hp
    · simp only [hif, if_neg] at hf
      simp at hf

/-- Every record stored by
`ComprehensiveDataAnalyzer.performCorrelationAnalysis` likewise comes from a
successful `calculateCorrelation` call on its column pair. -/
theorem mem_significantCorrelations (t : Table) (numCols : List String)
    (rec : CorrRecord) (hm : rec ∈ CDA.significantCorrelations t numCols) :
    CDA.calculateCorrelation t rec.column1 rec.column2 = some (rec.num, rec.den2) := by
  unfold CDA.significantCorrelations at hm
  rcases List.mem_filterMap.mp hm with ⟨pr, _, hf⟩
  cases hp : CDA.calculateCorrelation t pr.1 pr.2 with
  | none => rw [hp] at hf; simp at hf
  | some nd =>
    rw [hp] at hf
    by_cases hif : 100 * nd.1 ^ 2 > 9 * nd.2
    · simp only [hif, if_pos] at hf
      cases hf
      exact hp
    · simp only [hif, if_neg] at hf
      simp at hf

/-- Claim C4: whenever the Pearson radicand
`(nΣx² − (Σx)²)(nΣy² − (Σy)²)` of a column pair is `0` — so the JS
denominator `Math.sqrt(...)` is `0` — both variants treat the coefficient as
undefined (`null` in `DataAnalyzer.pearsonCorrelation`, the discarded `0`
sentinel in `ComprehensiveDataAnalyzer.calculateCorrelation`) and neither
emits a record for that pair. -/
theorem c4_theorem (t : Table) (c1 c2 : String)
    (h : corrDen2 (pairsOf t c1 c2) = 0) :
    DA.pearson t c1 c2 = none ∧ CDA.calculateCorrelation t c1 c2 = none ∧
    (∀ rec ∈ DA.calculateCorrelations t, ¬(rec.column1 = c1 ∧ rec.column2 = c2)) ∧
    (∀ numCols : List String, ∀ rec ∈ CDA.significantCorrelations t numCols,
      ¬(rec.column1 = c1 ∧ rec.column2 = c2)) := by
  have hpea : DA.pearson t c1 c2 = none := by simp [DA.pearson, h]
  have hcda : CDA.calculateCorrelation t c1 c2 = none := by
    simp [CDA.calculateCorrelation, h]
  refine ⟨hpea, hcda, ?_, ?_⟩
  · intro rec hmem hcc
    have hlink := mem_corrRecordsRaw t rec
      ((List.mem_insertionSort corrGe).mp hmem)
    rw [hcc.1, hcc.2, hpea] at hlink
    exact Option.noConfusion hlink
  · intro numCols rec hmem hcc
    have hlink := mem_significantCorrelations t numCols rec hmem
    rw [hcc.1, hcc.2, hcda] at hlink
    exact Option.noConfusion hlink

/-- Claim C4, witness: on `tZeroDen` (column `y` has zero variance) the
radicand is `0` and both variants return their undefined sentinel. -/
theorem c4_witness :
    corrDen2 (pairsOf tZeroDen "x" "y") = 0 ∧
    DA.pearson tZeroDen "x" "y" = none ∧
    CDA.calculateCorrelation tZeroDen "x" "y" = none :=
  ⟨by decide, (c4_theorem tZeroDen "x" "y" (by decide)).1,
    (c4_theorem tZeroDen "x" "y" (by decide)).2.1⟩

/-! ### Claim C5 — constant numeric columns -/

/-- The mean of a nonempty constant list is the constant. -/
theorem const_mean (l : List ℚ) (c : ℚ) (hne : l ≠ []) (hc : ∀ v ∈ l, v = c) :
    meanOf l = c := by
  have hlen : (l.length : ℚ) ≠ 0 :=
    Nat.cast_ne_zero.mpr (List.length_pos.mpr hne).ne'
  unfold meanOf
  rw [List.sum_eq_card_nsmul l c hc, nsmul_eq_mul, mul_comm, mul_div_assoc,
    div_self hlen, mul_one]

/-- The population variance of a nonempty constant list is `0`. -/
theorem const_variance (l : List ℚ) (c : ℚ) (hne : l ≠ []) (hc : ∀ v ∈ l, v = c) :
    varianceOf l = 0 := by
  unfold varianceOf
  rw [List.sum_eq_zero, zero_div]
  intro x hx
  rcases List.mem_map.mp hx with ⟨v, hv, rfl⟩
  rw [hc v hv, const_mean l c hne hc]
  ring

/-- The third central moment of a nonempty constant list is `0`. -/
theorem const_m3 (l : List ℚ) (c : ℚ) (hne : l ≠ []) (hc : ∀ v ∈ l, v = c) :
    m3Of l = 0 := by
  unfold m3Of
  rw [List.sum_eq_zero, zero_div]
  intro x hx
  rcases List.mem_map.mp hx with ⟨v, hv, rfl⟩
  rw [hc v hv, const_mean l c hne hc]
  ring

/-- The standard deviation `Math.sqrt(variance)` of a nonempty constant list
is `0`. -/
theorem const_std (l : List ℚ) (c : ℚ) (hne : l ≠ []) (hc : ∀ v ∈ l, v = c) :
    stdOf l = 0 := by
  unfold stdOf
  rw [const_variance l c hne hc]
  simp

/-- The skewness of a nonempty constant list is the `std === 0` branch value
`0` — a number, not `NaN`. -/
theorem const_skewness (l : List ℚ) (c : ℚ) (hne : l ≠ []) (hc : ∀ v ∈ l, v = c) :
    skewnessOf l = 0 := by
  unfold skewnessOf
  rw [if_pos (const_std l c hne hc)]

/-- Every in-range index of the sorted copy of a constant list reads the
constant. -/
theorem sortedValues_const (l : List ℚ) (c : ℚ) (hc : ∀ v ∈ l, v = c)
    (i : ℕ) (hi : i < (sortedValues l).length) :
    ((sortedValues l).get? i).getD 0 = c := by
  rw [List.get?_eq_get hi]
  exact hc _ ((List.mem_insertionSort _).mp (List.get_mem _ _ _))

/-- The median of a nonempty constant list is the constant. -/
theorem const_median (l : List ℚ) (c : ℚ) (hne : l ≠ []) (hc : ∀ v ∈ l, v = c) :
    medianOf l = c := by
  have hpos : 0 < (sortedValues l).length := by
    unfold sortedValues
    rw [List.length_insertionSort]
    exact List.length_pos.mpr hne
  unfold medianOf
  by_cases hpar : (sortedValues l).length % 2 = 0
  · rw [if_pos hpar, sortedValues_const l c hc _ (by omega),
      sortedValues_const l c hc _ (by omega)]
    ring
  · rw [if_neg hpar, sortedValues_const l c hc _ (by omega)]

/-- Folding `min` over a constant list from the constant stays put. -/
theorem foldl_min_const (c : ℚ) (xs : List ℚ) (hc : ∀ v ∈ xs, v = c) :
    xs.foldl min c = c := by
  induction xs with
  | nil => rfl
  | cons x rest ih =>
    rw [List.foldl_cons, hc x (by simp), min_self]
    exact ih fun y hy => hc y (by simp [hy])

/-- Folding `max` over a constant list from the constant stays put. -/
theorem foldl_max_const (c : ℚ) (xs : List ℚ) (hc : ∀ v ∈ xs, v = c) :
    xs.foldl max c = c := by
  induction xs with
  | nil => rfl
  | cons x rest ih =>
    rw [List.foldl_cons, hc x (by simp), max_self]
    exact ih fun y hy => hc y (by simp [hy])

/-- `Math.min(...l)` of a nonempty constant list is the constant. -/
theorem const_minOf (l : List ℚ) (c : ℚ) (hne : l ≠ []) (hc : ∀ v ∈ l, v = c) :
    minOf l = c := by
  cases l with
  | nil => exact absurd rfl hne
  | cons v rest =>
    simp only [minOf]
    rw [hc v (List.mem_cons_self _ _)]
    exact foldl_min_const c rest fun y hy => hc y (by simp [hy])

/-- `Math.max(...l)` of a nonempty constant list is the constant. -/
theorem const_maxOf (l : List ℚ) (c : ℚ) (hne : l ≠ []) (hc : ∀ v ∈ l, v = c) :
    maxOf l = c := by
  cases l with
  | nil => exact absurd rfl hne
  | cons v rest =>
    simp only [maxOf]
    rw [hc v (List.mem_cons_self _ _)]
    exact foldl_max_const c rest fun y hy => hc y (by simp [hy])

/-- `detectOutliers` on a nonempty constant list is empty: both fences
collapse onto the constant and the comparisons are strict. -/
theorem const_outliers (l : List ℚ) (c : ℚ) (hne : l ≠ []) (hc : ∀ v ∈ l, v = c) :
    CDA.detectOutliers l = [] := by
  have hpos : 0 < (sortedValues l).length := by
    unfold sortedValues
    rw [List.length_insertionSort]
    exact List.length_pos.mpr hne
  have hq1 : ((sortedValues l).get? (CDA.q1Idx (sortedValues l).length)).getD 0 = c :=
    sortedValues_const l c hc _ (by unfold CDA.q1Idx; omega)
  have hq3 : ((sortedValues l).get? (CDA.q3Idx (sortedValues l).length)).getD 0 = c :=
    sortedValues_const l c hc _ (by unfold CDA.q3Idx; omega)
  unfold CDA.detectOutliers CDA.calculateDistributionStats
  rw [if_neg hne]
  simp only [hq1, hq3]
  apply List.filter_eq_nil_iff.mpr
  intro v hv
  rw [hc v hv]
  simp only [Bool.or_eq_true, decide_eq_true_eq, not_or]
  constructor <;> intro hcon <;> nlinarith [hcon]

/-- Claim C5: on a nonempty numeric column whose parseable values are all
equal, both analyzers yield `std = 0` and `skewness = 0` (the `std === 0`
branch, an actual number rather than `NaN`), the comprehensive analyzer's
outlier list is empty, and `DataAnalyzer.calculateStats` returns the record
with zero variance and third moment. -/
theorem c5_theorem (t : Table) (col : String) (c : ℚ)
    (hne : parseColumn t col ≠ []) (hc : ∀ v ∈ parseColumn t col, v = c) :
    stdOf (parseColumn t col) = 0 ∧ skewnessOf (parseColumn t col) = 0 ∧
    CDA.detectOutliers (parseColumn t col) = [] ∧
    DA.calculateStats t col = some ⟨c, c, 0, 0, c, c⟩ := by
  refine ⟨const_std _ c hne hc, const_skewness _ c hne hc,
    const_outliers _ c hne hc, ?_⟩
  unfold DA.calculateStats
  rw [if_neg hne, const_mean _ c hne hc, const_median _ c hne hc,
    const_variance _ c hne hc, const_m3 _ c hne hc, const_minOf _ c hne hc,
    const_maxOf _ c hne hc]

/-- Claim C5, witness: the constant column `v = [5,5,5,5]` of `tConst`. -/
theorem c5_witness :
    parseColumn tConst "v" ≠ [] ∧
    stdOf (parseColumn tConst "v") = 0 ∧
    skewnessOf (parseColumn tConst "v") = 0 ∧
    CDA.detectOutliers (parseColumn tConst "v") = [] :=
  ⟨by decide, (c5_theorem tConst "v" 5 (by decide) (by decide)).1,
    (c5_theorem tConst "v" 5 (by decide) (by decide)).2.1,
    (c5_theorem tConst "v" 5 (by decide) (by decide)).2.2.1⟩

/-! ### Claim C6 — strict IQR outlier fences -/

/-- The nearest-rank quartiles satisfy `q1 ≤ q3`: they are reads of a sorted
copy at indices `⌊n/4⌋ ≤ ⌊3n/4⌋`. -/
theorem q1_le_q3 (values : List ℚ) (hne : values ≠ []) :
    ((sortedValues values).get? (CDA.q1Idx (sortedValues values).length)).getD 0 ≤
    ((sortedValues values).get? (CDA.q3Idx (sortedValues values).length)).getD 0 := by
  have hpos : 0 < (sortedValues values).length := by
    unfold sortedValues
    rw [List.length_insertionSort]
    exact List.length_pos.mpr hne
  have h1 : CDA.q1Idx (sortedValues values).length < (sortedValues values).length := by
    unfold CDA.q1Idx
    omega
  have h3 : CDA.q3Idx (sortedValues values).length < (sortedValues values).length := by
    unfold CDA.q3Idx
    omega
  rw [List.get?_eq_get h1, List.get?_eq_get h3]
  simp only [Option.getD_some]
  have hsorted : List.Sorted (· ≤ ·) (sortedValues values) :=
    List.sorted_insertionSort _ _
  refine hsorted.rel_get_of_le ?_
  rw [Fin.mk_le_mk]
  unfold CDA.q1Idx CDA.q3Idx
  omega

/-- Claim C6: the outlier fences are strict.  A value exactly at
`q3 + 1.5·IQR` (or exactly at `q1 − 1.5·IQR`) is not reported by
`ComprehensiveDataAnalyzer.detectOutliers`, while any value strictly outside
a fence is. -/
theorem c6_theorem (values : List ℚ) (s : CDA.StatsQ)
    (hs : CDA.calculateDistributionStats values = some s) :
    (∀ v ∈ values, (v = s.q3 + 1.5 * (s.q3 - s.q1) ∨ v = s.q1 - 1.5 * (s.q3 - s.q1)) →
      v ∉ CDA.detectOutliers values) ∧
    (∀ v ∈ values, (s.q3 + 1.5 * (s.q3 - s.q1) < v ∨ v < s.q1 - 1.5 * (s.q3 - s.q1)) →
      v ∈ CDA.detectOutliers values) := by
  have hne : values ≠ [] := by
    intro h
    rw [h] at hs
    simp [CDA.calculateDistributionStats] at hs
  have hrec : (⟨meanOf values, medianOf values, varianceOf values, m3Of values,
      minOf values, maxOf values,
      ((sortedValues values).get? (CDA.q1Idx (sortedValues values).length)).getD 0,
      ((sortedValues values).get? (CDA.q3Idx (sortedValues values).length)).getD 0⟩ :
        CDA.StatsQ) = s := by
    have h0 := hs
    unfold CDA.calculateDistributionStats at h0
    rw [if_neg hne] at h0
    exact Option.some.inj h0
  have hq13 : s.q1 ≤ s.q3 := by
    rw [← hrec]
    exact q1_le_q3 values hne
  unfold CDA.detectOutliers
  rw [hs]
  constructor
  · intro v hv hcase hmem
    have hpred := (List.mem_filter.mp hmem).2
    simp only [Bool.or_eq_true, decide_eq_true_eq] at hpred
    rcases hcase with rfl | rfl <;> rcases hpred with hlt | hlt <;> linarith
  · intro v hv hcase
    rw [List.mem_filter]
    refine ⟨hv, ?_⟩
    simp only [Bool.or_eq_true, decide_eq_true_eq]
    rcases hcase with hlt | hlt
    · exact Or.inr hlt
    · exact Or.inl hlt

/-- Claim C6, witness: for `[1,2,3,4,7]` the upper fence is exactly `7`,
so `7` is not an outlier; for `[1,2,3,4,8]` the value `8` is strictly above
the (same) fence and is an outlier. -/
theorem c6_witness :
    CDA.calculateDistributionStats [1, 2, 3, 4, 7] = some statsAtFence ∧
    (7 : ℚ) ∉ CDA.detectOutliers [1, 2, 3, 4, 7] ∧
    CDA.calculateDistributionStats [1, 2, 3, 4, 8] = some statsAboveFence ∧
    (8 : ℚ) ∈ CDA.detectOutliers [1, 2, 3, 4, 8] :=
  ⟨by decide,
    (c6_theorem [1, 2, 3, 4, 7] statsAtFence (by decide)).1 7 (by decide)
      (Or.inl (by decide)),
    by decide,
    (c6_theorem [1, 2, 3, 4, 8] statsAboveFence (by decide)).2 8 (by decide)
      (Or.inl (by decide))⟩

/-! ### Claim C7 — trend estimator thresholds -/

/-- Claim C7, counterexample: in the under-two-points branch
`ComprehensiveDataAnalyzer.calculateTrends` returns
`{direction: 'insufficient_data'}` with *no* `slope` property (`undefined`,
not the claimed `0`). -/
theorem c7_counterexample :
    (CDA.calculateTrends [] []).direction = "insufficient_data" ∧
    (CDA.calculateTrends [] []).slope = none :=
  ⟨rfl, rfl⟩

/-- Claim C7, amended: `DataAnalyzer.calculateTrend` returns
`{direction: 'Insufficient Data', slope: 0}` when fewer than two parseable
points exist, and otherwise classifies by `slope > 0.001` / `slope < −0.001`;
`ComprehensiveDataAnalyzer.calculateTrends` applies the same thresholds
(directions `increasing`/`declining`/`stable`) but, with fewer than two
time-series rows, returns the `insufficient_data` direction without a slope
property. -/
theorem c7_theorem (t : Table) (col : String) (ts : List CDA.TSEntry)
    (numCols : List String) :
    ((DA.trendPoints t col).length < 2 →
      DA.calculateTrend t col = ⟨"Insufficient Data", 0⟩) ∧
    (2 ≤ (DA.trendPoints t col).length →
      (((DA.calculateTrend t col).direction = "Upward" ↔
        1 / 1000 < (DA.calculateTrend t col).slope) ∧
      ((DA.calculateTrend t col).direction = "Downward" ↔
        (DA.calculateTrend t col).slope < -(1 / 1000)) ∧
      ((DA.calculateTrend t col).direction = "Sideways" ↔
        (¬(1 / 1000 < (DA.calculateTrend t col).slope) ∧
         ¬((DA.calculateTrend t col).slope < -(1 / 1000)))))) ∧
    (ts.length < 2 →
      CDA.calculateTrends ts numCols = ⟨"insufficient_data", none, none⟩) ∧
    (2 ≤ ts.length → ∀ m rest, numCols = m :: rest →
      ∃ sl : ℚ, (CDA.calculateTrends ts numCols).slope = some sl ∧
        (((CDA.calculateTrends ts numCols).direction = "increasing" ↔
            1 / 1000 < sl) ∧
        ((CDA.calculateTrends ts numCols).direction = "declining" ↔
            sl < -(1 / 1000)) ∧
        ((CDA.calculateTrends ts numCols).direction = "stable" ↔
          (¬(1 / 1000 < sl) ∧ ¬(sl < -(1 / 1000)))))) := by
  refine ⟨?_, ?_, ?_, ?_⟩
  · intro hlt
    unfold DA.calculateTrend
    rw [if_pos hlt]
  · intro hge
    unfold DA.calculateTrend
    rw [if_neg (by omega)]
    dsimp only
    set sl := DA.slopeOf (DA.trendPoints t col) with hsl
    by_cases h1 : 1 / 1000 < sl
    · rw [if_pos h1]
      refine ⟨⟨fun _ => h1, fun _ => rfl⟩, ?_, ?_⟩
      · exact ⟨fun h => absurd h (by decide), fun h => absurd h1 (by linarith)⟩
      · exact ⟨fun h => absurd h (by decide), fun h => absurd h1 h.1⟩
    · rw [if_neg h1]
      by_cases h2 : sl < -(1 / 1000)
      · rw [if_pos h2]
        refine ⟨?_, ⟨fun _ => h2, fun _ => rfl⟩, ?_⟩
        · exact ⟨fun h => absurd h (by decide), fun h => absurd h h1⟩
        · exact ⟨fun h => absurd h (by decide), fun h => absurd h2 h.2⟩
      · rw [if_neg h2]
        refine ⟨?_, ?_, ⟨fun _ => ⟨h1, h2⟩, fun _ => rfl⟩⟩
        · exact ⟨fun h => absurd h (by decide), fun h => absurd h h1⟩
        · exact ⟨fun h => absurd h (by decide), fun h => absurd h h2⟩
  · intro hlt
    unfold CDA.calculateTrends
    rw [if_pos hlt]
  · intro hge m rest hcols
    subst hcols
    unfold CDA.calculateTrends
    rw [if_neg (by omega)]
    dsimp only
    set sl := DA.slopeOf
      (ts.enum.map fun p => ((p.1 : ℚ), (p.2.vals.lookup m).getD 0)) with hsl
    refine ⟨sl, rfl, ?_⟩
    by_cases h1 : 1 / 1000 < sl
    · rw [if_pos h1]
      refine ⟨⟨fun _ => h1, fun _ => rfl⟩, ?_, ?_⟩
      · exact ⟨fun h => absurd h (by decide), fun h => absurd h1 (by linarith)⟩
      · exact ⟨fun h => absurd h (by decide), fun h => absurd h1 h.1⟩
    · rw [if_neg h1]
      by_cases h2 : sl < -(1 / 1000)
      · rw [if_pos h2]
        refine ⟨?_, ⟨fun _ => h2, fun _ => rfl⟩, ?_⟩
        · exact ⟨fun h => absurd h (by decide), fun h => absurd h h1⟩
        · exact ⟨fun h => absurd h (by decide), fun h => absurd h2 h.2⟩
      · rw [if_neg h2]
        refine ⟨?_, ?_, ⟨fun _ => ⟨h1, h2⟩, fun _ => rfl⟩⟩
        · exact ⟨fun h => absurd h (by decide), fun h => absurd h h1⟩
        · exact ⟨fun h => absurd h (by decide), fun h => absurd h h2⟩

/-- Claim C7, witness: on the two-point column `v = [1, 2]` the slope is `1`
and the direction is `Upward`; on an empty table the insufficient-data
result carries slope `0`. -/
theorem c7_witness :
    2 ≤ (DA.trendPoints tUp "v").length ∧
    (DA.calculateTrend tUp "v").direction = "Upward" ∧
    DA.calculateTrend ([] : Table) "v" = ⟨"Insufficient Data", 0⟩ :=
  ⟨by decide,
    ((c7_theorem tUp "v" [] []).2.1 (by decide)).1.mpr (by decide),
    (c7_theorem ([] : Table) "v" [] []).1 (by decide)⟩

/-! ### Claim C8 — the average-volatility metric -/

/-- Folding JS addition over finite values from a finite accumulator stays
finite. -/
theorem foldl_jsAdd_fin (l : List JSNum) (h : ∀ v ∈ l, ∃ q : ℚ, v = .fin q) :
    ∀ a : ℚ, ∃ q : ℚ, l.foldl jsAdd (.fin a) = .fin q := by
  induction l with
  | nil => exact fun a => ⟨a, rfl⟩
  | cons x xs ih =>
    intro a
    rcases h x (by simp) with ⟨qx, rfl⟩
    rw [List.foldl_cons]
    exact ih (fun v hv => h v (by simp [hv])) (a + qx)

/-- If every row either fails to parse, or has `low ≠ 0`, or has
`high = low = 0` (the `hnoinf` hypothesis rules out `low = 0` with a nonzero
parsed `high`, the infinity case), then every volatility that survives the
`!isNaN` filter is a finite value. -/
theorem calculateVolatility_fin (t : Table)
    (hnoinf : ∀ r ∈ t, (getCell r "low").parsed = some 0 →
      ((getCell r "high").parsed).isSome = true → (getCell r "high").parsed = some 0) :
    ∀ v ∈ DA.calculateVolatility t, ∃ q : ℚ, v = .fin q := by
  intro v hv
  unfold DA.calculateVolatility at hv
  by_cases hcols : hasColumns t ["high", "low"]
  · rw [if_pos hcols] at hv
    rcases List.mem_filter.mp hv with ⟨hmem, hnn⟩
    rcases List.mem_map.mp hmem with ⟨r, hr, rfl⟩
    cases hparseH : (getCell r "high").parsed with
    | none => simp [parsedJS, hparseH, jsSub, jsDiv, jsIsNaN] at hnn
    | some qh =>
      cases hparseL : (getCell r "low").parsed with
      | none => simp [parsedJS, hparseH, hparseL, jsSub, jsDiv, jsIsNaN] at hnn
      | some ql =>
        by_cases hl0 : ql = 0
        · subst hl0
          have hq0 : (getCell r "high").parsed = some 0 :=
            hnoinf r hr hparseL (by rw [hparseH]; rfl)
          rw [hparseH] at hq0
          have : qh = 0 := Option.some.inj hq0
          subst this
          simp [parsedJS, hparseH, hparseL, jsSub, jsDiv, jsIsNaN] at hnn
        · exact ⟨(qh - ql) / ql, by
            simp [parsedJS, hparseH, hparseL, jsSub, jsDiv, hl0]⟩
  · rw [if_neg hcols] at hv
    exact absurd hv (List.not_mem_nil _)

/-- Whenever the `high`/`low` columns are present, `DataAnalyzer.findThemes`
emits the volatility theme carrying `avgVolatility` as its metric. -/
theorem volTheme_mem (t : Table) (hcols : hasColumns t ["high", "low"] = true) :
    DA.Theme.mk "Price Volatility Patterns" (8 / 10) ["high", "low"]
      "statistical" (.volatilityM (DA.avgVolatility t)) ∈ DA.findThemes t := by
  unfold DA.findThemes
  simp [hcols]

/-- Claim C8, counterexample: on `tBadVol` both columns are present but no
row parses, so the volatility list filters to `[]`, the average is the JS
`0 / 0 = NaN`, and the emitted "Price Volatility Patterns" theme carries
`NaN` as its metric (the description then renders `NaN`). -/
theorem c8_counterexample :
    DA.avgVolatility tBadVol = .nan ∧
    DA.Theme.mk "Price Volatility Patterns" (8 / 10) ["high", "low"]
      "statistical" (.volatilityM .nan) ∈ DA.findThemes tBadVol :=
  ⟨by decide, by decide⟩

/-- Claim C8, amended: if `high` and `low` are present, at least one row has
parseable `high` and `low` with `low ≠ 0`, and no row pairs a parseable
nonzero `high` with `low = 0` (which would produce an infinity that the
`!isNaN` filter keeps), then the average volatility is a finite number and
the emitted theme carries that finite value. -/
theorem c8_theorem (t : Table)
    (hcols : hasColumns t ["high", "low"] = true)
    (hfin : ∃ r ∈ t, ((getCell r "high").parsed).isSome = true ∧
      ((getCell r "low").parsed).isSome = true ∧ (getCell r "low").parsed ≠ some 0)
    (hnoinf : ∀ r ∈ t, (getCell r "low").parsed = some 0 →
      ((getCell r "high").parsed).isSome = true → (getCell r "high").parsed = some 0) :
    ∃ q : ℚ, DA.avgVolatility t = .fin q ∧
      DA.Theme.mk "Price Volatility Patterns" (8 / 10) ["high", "low"]
        "statistical" (.volatilityM (.fin q)) ∈ DA.findThemes t := by
  have hfinall := calculateVolatility_fin t hnoinf
  have hne : DA.calculateVolatility t ≠ [] := by
    rcases hfin with ⟨r, hr, hH, hL, hL0⟩
    rcases Option.isSome_iff_exists.mp hH with ⟨qh, hqh⟩
    rcases Option.isSome_iff_exists.mp hL with ⟨ql, hql⟩
    have hql0 : ql ≠ 0 := fun h => hL0 (h ▸ hql)
    intro hnil
    have hmem : jsDiv (jsSub (parsedJS (getCell r "high")) (parsedJS (getCell r "low")))
        (parsedJS (getCell r "low")) ∈ DA.calculateVolatility t := by
      unfold DA.calculateVolatility
      rw [if_pos hcols]
      refine List.mem_filter.mpr ⟨List.mem_map.mpr ⟨r, hr, rfl⟩, ?_⟩
      simp [parsedJS, hqh, hql, jsSub, jsDiv, hql0, jsIsNaN]
    rw [hnil] at hmem
    exact absurd hmem (List.not_mem_nil _)
  rcases foldl_jsAdd_fin (DA.calculateVolatility t) hfinall 0 with ⟨S, hS⟩
  have hlen : ((DA.calculateVolatility t).length : ℚ) ≠ 0 :=
    Nat.cast_ne_zero.mpr (List.length_pos.mpr hne).ne'
  refine ⟨S / (DA.calculateVolatility t).length, ?_, ?_⟩
  · unfold DA.avgVolatility jsListSum
    rw [hS]
    simp [jsDiv, hlen]
  · have h0 : DA.avgVolatility t = .fin (S / (DA.calculateVolatility t).length) := by
      unfold DA.avgVolatility jsListSum
      rw [hS]
      simp [jsDiv, hlen]
    exact h0 ▸ volTheme_mem t hcols

/-- Claim C8, witness: on `tGoodVol` (`high = 12`, `low = 10`) the average
volatility is the finite value `1/5` and the theme carries it. -/
theorem c8_witness :
    hasColumns tGoodVol ["high", "low"] = true ∧
    ∃ q : ℚ, DA.avgVolatility tGoodVol = .fin q ∧
      DA.Theme.mk "Price Volatility Patterns" (8 / 10) ["high", "low"]
        "statistical" (.volatilityM (.fin q)) ∈ DA.findThemes tGoodVol :=
  ⟨by decide, c8_theorem tGoodVol (by decide) (by decide) (by decide)⟩

/-! ### Claim C9 — determinism and absence of table mutation -/

/-- The classification step never touches `this.data`. -/
theorem classifyStep_data (s : CDA.CState) : (CDA.classifyStep s).data = s.data := by
  unfold CDA.classifyStep
  split <;> rfl

/-- The full pipeline never touches `this.data`: the only place a sort could
have reordered it, `performPerformanceAnalysis`, sorts the spread copy
`[...this.data]`. -/
theorem runAnalysis_data (s : CDA.CState) : (CDA.runAnalysis s).data = s.data := by
  unfold CDA.runAnalysis
  exact classifyStep_data s

/-- Running the pipeline twice in a row is the same as running it once: the
second run recomputes every classification field and every stored result
from the unchanged `this.data` (or, for an empty table, leaves the
classification fields exactly as the first run left them). -/
theorem runAnalysis_idem (s : CDA.CState) :
    CDA.runAnalysis (CDA.runAnalysis s) = CDA.runAnalysis s := by
  unfold CDA.runAnalysis CDA.classifyStep
  by_cases h : s.data.length = 0 <;> simp [h]

/-- Claim C9: the comprehensive analysis is deterministic and mutation-free —
running it twice on the same unchanged table yields the identical
`analysisResults` aggregate, and the input table (row order and cells) is
left unmodified. -/
theorem c9_theorem (s : CDA.CState) :
    (CDA.runAnalysis (CDA.runAnalysis s)).analysisResults
      = (CDA.runAnalysis s).analysisResults ∧
    (CDA.runAnalysis s).data = s.data :=
  ⟨congrArg CDA.CState.analysisResults (runAnalysis_idem s), runAnalysis_data s⟩

/-! ### Claim C10 — `sumColumn` and the executive-summary metrics -/

/-- The `reduce` of `sumColumn` under JS number semantics, generalized over
the accumulator: the `isNaN` guard keeps the sum finite, and each
unparseable cell contributes `0`. -/
theorem sumColumn_foldl (col : String) (t : Table) :
    ∀ a : ℚ, (t.foldl (fun sum r =>
        let v := parsedJS (getCell r col)
        jsAdd sum (if jsIsNaN v then .fin 0 else v)) (.fin a))
      = .fin (a + (t.map fun r => ((getCell r col).parsed).getD 0).sum) := by
  induction t with
  | nil => intro a; simp
  | cons r rest ih =>
    intro a
    rw [List.foldl_cons]
    cases hp : (getCell r col).parsed with
    | none =>
      have hacc : jsAdd (JSNum.fin a)
          (if jsIsNaN (parsedJS (getCell r col)) = true then JSNum.fin 0
            else parsedJS (getCell r col)) = JSNum.fin (a + 0) := by
        simp [parsedJS, hp, jsIsNaN, jsAdd]
      dsimp only
      rw [hacc, ih (a + 0)]
      simp only [List.map_cons, List.sum_cons, hp, Option.getD_none, JSNum.fin.injEq]
      ring
    | some q =>
      have hacc : jsAdd (JSNum.fin a)
          (if jsIsNaN (parsedJS (getCell r col)) = true then JSNum.fin 0
            else parsedJS (getCell r col)) = JSNum.fin (a + q) := by
        simp [parsedJS, hp, jsIsNaN, jsAdd]
      dsimp only
      rw [hacc, ih (a + q)]
      simp only [List.map_cons, List.sum_cons, hp, Option.getD_some, JSNum.fin.injEq]
      ring

/-- `sumColumn` always produces the finite value `sumColumnQ`. -/
theorem sumColumn_eq_fin (t : Table) (col : String) :
    CDA.sumColumn t col = .fin (CDA.sumColumnQ t col) := by
  unfold CDA.sumColumn CDA.sumColumnQ
  rw [sumColumn_foldl col t 0]
  norm_num

/-- Claim C10: `sumColumn` returns a (finite) number for every table and
column — never `NaN` — equal to the sum in which every cell whose
`parseFloat` is `NaN` contributes `0`; consequently every executive-summary
key metric (including the guarded CTR ratio) is a defined finite number. -/
theorem c10_theorem (t : Table) (col : String) :
    CDA.sumColumn t col = .fin (CDA.sumColumnQ t col) ∧
    ∀ m ∈ CDA.keyMetricsOf t (CDA.numericCols t), ∃ q : ℚ, m.value = .fin q := by
  refine ⟨sumColumn_eq_fin t col, ?_⟩
  intro m hm
  unfold CDA.keyMetricsOf at hm
  by_cases hc : hasColumns t ["impressions", "clicks", "spent"]
  · rw [if_pos hc] at hm
    simp only [List.mem_cons, List.not_mem_nil, or_false] at hm
    rcases hm with rfl | rfl | rfl | rfl
    · exact ⟨_, sumColumn_eq_fin t "impressions"⟩
    · exact ⟨_, sumColumn_eq_fin t "clicks"⟩
    · exact ⟨_, sumColumn_eq_fin t "spent"⟩
    · dsimp only
      rw [sumColumn_eq_fin t "impressions", sumColumn_eq_fin t "clicks"]
      by_cases hpos : 0 < CDA.sumColumnQ t "impressions"
      · rw [if_pos (by simp [jsGtZero, hpos])]
        simp [jsDiv, jsMul, hpos.ne']
      · rw [if_neg (by simp [jsGtZero, hpos])]
        exact ⟨0, rfl⟩
  · rw [if_neg hc] at hm
    rcases List.mem_map.mp hm with ⟨c2, _, rfl⟩
    exact ⟨_, sumColumn_eq_fin t c2⟩
